import Mathlib

/-!
# Verification of the `Result` / `AsyncResult` toolkit

Shallow embedding of the two `Result` modules found in
`workers/registry/registry/default/lib` of the repository:

* `RMain` — the primary module: classes `Ok`, `Err`, `AsyncResult`, the
  free functions `all` / `partition` / `firstOk`, the capturing functions
  `tryCatch` (exported as `Result.try`) and `AsyncResult.tryPromise`.
* `RSync` — the second, sync-only module with its own `all` / `partition`
  / `firstOk`.

Modelling decisions, shared by both modules:

* Reference identity. The source relies on "the same instance"
  semantics, observable through JavaScript `===`.  Every `Ok` / `Err`
  object therefore carries an allocation identifier `id : Nat`; an
  operation that allocates a fresh object receives the fresh identifier
  as an explicit argument, while an operation that returns an existing
  instance returns the record unchanged (same `id`).  Structural
  equality of the records is then exactly reference equality.
* Phantom type parameters. At runtime an `Ok` stores only `value` and an
  `Err` stores only `error`; the TypeScript phantom parameters have no
  runtime content, so `Ok` is parametrised only by its value type and
  `Err` only by its error type.  The source's phantom-changing casts
  (`result as unknown as Err<E, T[]>`) become the identity.
* Promises. A promise is modelled by its resolution value (the claims
  observe only resolutions, and resolution is idempotent and cached).  A
  rejecting promise, like a throwing thunk, is modelled with `Except`.
* Thrown faults.  JavaScript `throw` is modelled with `Except`; the
  `Error` objects the library constructs are `JSError` records carrying
  the message and the optional `cause`.
* Transform functions.  A function value passed to `map` / `andThen`
  carries, besides its behaviour, the runtime fact the source inspects:
  whether it is a declared `async function`
  (`fn.constructor.name === "AsyncFunction"`).
-/

set_option autoImplicit false

/-- A JavaScript `Error` object: the message and the optional `cause`
supplied via `new Error(message, { cause })`.  `κ` is the type of the
values that can appear as a cause (anything can be thrown in JS). -/
structure JSError (κ : Type) where
  message : String
  cause : Option κ
deriving DecidableEq, Repr

namespace RMain

/-- The runtime content of the `Ok` class of the primary module: the tag
is implicit in the Lean type, `value` is the stored field, `id` models
the object's reference identity. -/
structure Ok (α : Type) where
  id : Nat
  value : α
deriving DecidableEq, Repr

/-- The runtime content of the `Err` class of the primary module: only
`error` is stored (the success type parameter is phantom), `id` models
the object's reference identity. -/
structure Err (ε : Type) where
  id : Nat
  error : ε
deriving DecidableEq, Repr

/-- `type Result<A, E> = Ok<A, E> | Err<E, A>` — a value of the union. -/
inductive Result (α ε : Type) where
  | ok (o : Ok α)
  | err (e : Err ε)
deriving DecidableEq, Repr

/-- `class AsyncResult` wraps `promise: Promise<Result<A, E>>`; the
promise is modelled by its resolution. -/
structure AsyncResult (α ε : Type) where
  promise : Result α ε
deriving DecidableEq, Repr

/-- The union type `Result<U, E> | AsyncResult<U, E>` returned by the
bridging combinators. -/
inductive SyncOrAsync (α ε : Type) where
  | sync (r : Result α ε)
  | async (a : AsyncResult α ε)
deriving DecidableEq, Repr

/-- Whether a bridging combinator returned the deferred variant. -/
def SyncOrAsync.isAsync {α ε : Type} : SyncOrAsync α ε → Bool
  | .sync _ => false
  | .async _ => true

/-- The value returned by a transform passed to `map`: either a plain
value or a `Promise` of one (modelled by its resolution). -/
inductive PVal (β : Type) where
  | val (b : β)
  | promise (b : β)
deriving DecidableEq, Repr

/-- `result instanceof Promise` on a transform's return value. -/
def PVal.isPromise {β : Type} : PVal β → Bool
  | .val _ => false
  | .promise _ => true

/-- A function value passed to `map`: `isAsyncDecl` is the runtime fact
`fn.constructor.name === "AsyncFunction"` that `Err.map` inspects, and
`run` is the function's behaviour (returning a value or a promise). -/
structure JSFun (α β : Type) where
  isAsyncDecl : Bool
  run : α → PVal β

/-- The value returned by a function passed to `andThen`:
`Result | AsyncResult | Promise<Result>` (the promise modelled by its
resolution). -/
inductive AndThenRet (β ε : Type) where
  | res (r : Result β ε)
  | ares (a : AsyncResult β ε)
  | promiseRes (r : Result β ε)
deriving DecidableEq, Repr

/-- A function value passed to `andThen`, with the declared-async flag
inspected by `Err.andThen`. -/
structure AndThenFn (α β ε : Type) where
  isAsyncDecl : Bool
  run : α → AndThenRet β ε

variable {α β ε φ κ τ : Type}

/-- `Ok.map`: applies `fn` to the value; if the returned value is a
`Promise` (`result instanceof Promise`), wraps the awaited value in a
new `Ok` inside a new `AsyncResult`, else wraps it in a new `Ok`.
`fresh` is the identifier of the allocated `Ok`. -/
def Ok.map (self : Ok α) (fn : JSFun α β) (fresh : Nat) : SyncOrAsync β ε :=
  match fn.run self.value with
  | .promise b => .async ⟨.ok ⟨fresh, b⟩⟩
  | .val b => .sync (.ok ⟨fresh, b⟩)

/-- `Ok.mapErr`: no-op, returns `this` (same instance, phantom error
type reinterpreted). -/
def Ok.mapErr (self : Ok α) (_fn : ε → φ) : Result α φ :=
  .ok self

/-- `Ok.andThen`: invokes `fn` on the value and returns its result,
wrapping a `Promise<Result>` into a new `AsyncResult`. -/
def Ok.andThen (self : Ok α) (fn : AndThenFn α β ε) : SyncOrAsync β ε :=
  match fn.run self.value with
  | .ares a => .async a
  | .promiseRes r => .async ⟨r⟩
  | .res r => .sync r

/-- `Ok.unwrap`: returns the value (total on `Ok`). -/
def Ok.unwrap (self : Ok α) : α :=
  self.value

/-- `Ok.unwrapErr`: `throw new Error("Called unwrapErr on Ok")`. -/
def Ok.unwrapErr (self : Ok α) : Except (JSError κ) ε :=
  let _ := self
  .error ⟨"Called unwrapErr on Ok", none⟩

/-- `Err.map`: no-op on the value.  If
`fn.constructor.name === "AsyncFunction"` it returns
`new AsyncResult(Promise.resolve(this))` — a deferred outcome resolving
to the same `Err` instance; otherwise it returns `this` unchanged. -/
def Err.map (self : Err ε) (fn : JSFun α β) : SyncOrAsync β ε :=
  if fn.isAsyncDecl then .async ⟨.err self⟩
  else .sync (.err self)

/-- `Err.mapErr`: allocates a new `Err` holding `fn(this.error)`. -/
def Err.mapErr (self : Err ε) (fn : ε → φ) (fresh : Nat) : Result α φ :=
  .err ⟨fresh, fn self.error⟩

/-- `Err.andThen`: no-op; same declared-async detection as `Err.map`. -/
def Err.andThen (self : Err ε) (fn : AndThenFn α β ε) : SyncOrAsync β ε :=
  if fn.isAsyncDecl then .async ⟨.err self⟩
  else .sync (.err self)

/-- `Err.unwrap`: `throw new Error("Called unwrap on Err")`. -/
def Err.unwrap (self : Err ε) : Except (JSError κ) α :=
  let _ := self
  .error ⟨"Called unwrap on Err", none⟩

/-- `Err.unwrapErr`: returns the error (total on `Err`). -/
def Err.unwrapErr (self : Err ε) : ε :=
  self.error

/-- Method dispatch of `map` over the union. -/
def Result.map (self : Result α ε) (fn : JSFun α β) (fresh : Nat) :
    SyncOrAsync β ε :=
  match self with
  | .ok o => o.map fn fresh
  | .err e => e.map fn

/-- Method dispatch of `mapErr` over the union (`Err.mapErr` allocates,
so the fresh identifier is threaded through). -/
def Result.mapErr (self : Result α ε) (fn : ε → φ) (fresh : Nat) :
    Result α φ :=
  match self with
  | .ok o => o.mapErr fn
  | .err e => e.mapErr fn fresh

/-- Method dispatch of `andThen` over the union. -/
def Result.andThen (self : Result α ε) (fn : AndThenFn α β ε) :
    SyncOrAsync β ε :=
  match self with
  | .ok o => o.andThen fn
  | .err e => e.andThen fn

/-- Method dispatch of `isOk` (`Ok.isOk` returns `true`, `Err.isOk`
returns `false`). -/
def Result.isOk : Result α ε → Bool
  | .ok _ => true
  | .err _ => false

/-- Method dispatch of `isErr` (`Ok.isErr` returns `false`, `Err.isErr`
returns `true`). -/
def Result.isErr : Result α ε → Bool
  | .ok _ => false
  | .err _ => true

/-- Method dispatch of `unwrap` over the union. -/
def Result.unwrap : Result α ε → Except (JSError κ) α
  | .ok o => .ok o.unwrap
  | .err e => e.unwrap

/-- Method dispatch of `unwrapErr` over the union. -/
def Result.unwrapErr : Result α ε → Except (JSError κ) ε
  | .ok o => o.unwrapErr
  | .err e => .ok e.unwrapErr

/-- `function ok<T, E>(value)` — allocates a new `Ok`. -/
def Result.mkOk (value : α) (fresh : Nat) : Result α ε :=
  .ok ⟨fresh, value⟩

/-- `function err<E, T>(error)` — allocates a new `Err`. -/
def Result.mkErr (error : ε) (fresh : Nat) : Result α ε :=
  .err ⟨fresh, error⟩

/-- The loop of `Result.all`: walks the array accumulating the pushed
values; at the first `Err` element returns that element itself (the
source's `return result as unknown as Err<E, T[]>` — the phantom cast is
the identity here). -/
def allAux (fresh : Nat) : List (Result α ε) → List α → Result (List α) ε
  | [], values => .ok ⟨fresh, values⟩
  | .ok o :: rest, values => allAux fresh rest (values ++ [o.value])
  | .err e :: _, _ => .err e

/-- `function all<T, E>(results)` of the primary module; `fresh` is the
identifier of the `Ok` allocated by the final `ok(values)`. -/
def Result.all (results : List (Result α ε)) (fresh : Nat) :
    Result (List α) ε :=
  allAux fresh results []

/-- The loop of `Result.partition`: accumulates every pushed value and
every pushed error. -/
def partitionAux (fresh : Nat) :
    List (Result α ε) → List α → List ε → Result (List α) (List ε)
  | [], values, errors =>
      if errors.length > 0 then .err ⟨fresh, errors⟩ else .ok ⟨fresh, values⟩
  | .ok o :: rest, values, errors =>
      partitionAux fresh rest (values ++ [o.value]) errors
  | .err e :: rest, values, errors =>
      partitionAux fresh rest values (errors ++ [e.error])

/-- `function partition<T, E>(results)` of the primary module; `fresh`
is the identifier of the `Err` or `Ok` allocated at the end. -/
def Result.partition (results : List (Result α ε)) (fresh : Nat) :
    Result (List α) (List ε) :=
  partitionAux fresh results [] []

/-- The loop of `Result.firstOk`: `lastErr` holds the most recent `Err`
element seen; an `Ok` element is returned at once (the same instance);
after the loop, `lastErr` is returned if it was ever assigned, else
`throw new Error("firstOk called with empty array")`. -/
def firstOkAux :
    List (Result α ε) → Option (Result α ε) → Except (JSError κ) (Result α ε)
  | [], some lastErr => .ok lastErr
  | [], none => .error ⟨"firstOk called with empty array", none⟩
  | .ok o :: _, _ => .ok (.ok o)
  | .err e :: rest, _ => firstOkAux rest (some (.err e))

/-- `function firstOk<T, E>(results)` of the primary module. -/
def Result.firstOk (results : List (Result α ε)) :
    Except (JSError κ) (Result α ε) :=
  firstOkAux results none

/-- A fallible computation handed to `try` / `tryPromise`: its outcome
is either a returned (resolved) value or a thrown (rejected) fault of
type `κ`. -/
def Comp (κ τ : Type) : Type := Except κ τ

/-- `function tryCatch` of the primary module, `{ try, catch }` branch:
`Result.ok(args.try())` on normal return, `Result.err(args.catch(cause))`
on a throw.  `fresh` identifies the allocated `Ok` / `Err`. -/
def tryCatchWith (comp : Comp κ τ) (catchFn : κ → ε) (fresh : Nat) :
    Result τ ε :=
  match comp with
  | .ok v => Result.mkOk v fresh
  | .error cause => Result.mkErr (catchFn cause) fresh

/-- `function tryCatch` of the primary module, bare-thunk branch: on a
throw, `Result.err(new Error("Unexpected exception", { cause }))`. -/
def tryCatchThunk (comp : Comp κ τ) (fresh : Nat) : Result τ (JSError κ) :=
  match comp with
  | .ok v => Result.mkOk v fresh
  | .error cause => Result.mkErr ⟨"Unexpected exception", some cause⟩ fresh

/-- `AsyncResult.tryPromise`, `{ try, catch }` branch: the wrapped
promise resolves to `new Ok(value)` or, on rejection, to
`new Err(args.catch(cause))`. -/
def tryPromiseWith (comp : Comp κ τ) (catchFn : κ → ε) (fresh : Nat) :
    AsyncResult τ ε :=
  ⟨match comp with
   | .ok v => .ok ⟨fresh, v⟩
   | .error cause => .err ⟨fresh, catchFn cause⟩⟩

/-- `AsyncResult.tryPromise`, bare-thunk branch: on rejection the
promise resolves to `new Err(new Error("Unexpected exception", { cause }))`. -/
def tryPromiseThunk (comp : Comp κ τ) (fresh : Nat) :
    AsyncResult τ (JSError κ) :=
  ⟨match comp with
   | .ok v => .ok ⟨fresh, v⟩
   | .error cause => .err ⟨fresh, ⟨"Unexpected exception", some cause⟩⟩⟩

/-- `AsyncResult.all`: `Promise.all` over the wrapped promises — which
preserves input order in its output array — then `Result.all` on the
settled results. -/
def AsyncResult.all (results : List (AsyncResult α ε)) (fresh : Nat) :
    AsyncResult (List α) ε :=
  ⟨Result.all (results.map AsyncResult.promise) fresh⟩

end RMain

namespace RSync

open RMain (Ok Err Result)

variable {α ε κ : Type}

/-!
The second, sync-only `Result` module.  Its `Ok` / `Err` classes store
exactly the same runtime data as the primary module's (the `_tag`
discriminant and the single payload field), so the shared
representation `RMain.Result` is reused; the functions below are
translated from the second module's own source.
-/

/-- The loop of the sync-only module's `all`: `if (result.isErr())
return result;` then `values.push(result.value)`. -/
def allAux (fresh : Nat) : List (Result α ε) → List α → Result (List α) ε
  | [], values => .ok ⟨fresh, values⟩
  | .err e :: _, _ => .err e
  | .ok o :: rest, values => allAux fresh rest (values ++ [o.value])

/-- `function all<T, E>(results)` of the sync-only module. -/
def all (results : List (Result α ε)) (fresh : Nat) : Result (List α) ε :=
  allAux fresh results []

/-- The loop of the sync-only module's `partition`: `if (result.isErr())
errors.push(result.error); else values.push(result.value)`. -/
def partitionAux (fresh : Nat) :
    List (Result α ε) → List α → List ε → Result (List α) (List ε)
  | [], values, errors =>
      if errors.length > 0 then .err ⟨fresh, errors⟩ else .ok ⟨fresh, values⟩
  | .err e :: rest, values, errors =>
      partitionAux fresh rest values (errors ++ [e.error])
  | .ok o :: rest, values, errors =>
      partitionAux fresh rest (values ++ [o.value]) errors

/-- `function partition<T, E>(results)` of the sync-only module. -/
def partition (results : List (Result α ε)) (fresh : Nat) :
    Result (List α) (List ε) :=
  partitionAux fresh results [] []

/-- The loop of the sync-only module's `firstOk` (textually identical to
the primary module's). -/
def firstOkAux :
    List (Result α ε) → Option (Result α ε) → Except (JSError κ) (Result α ε)
  | [], some lastErr => .ok lastErr
  | [], none => .error ⟨"firstOk called with empty array", none⟩
  | .ok o :: _, _ => .ok (.ok o)
  | .err e :: rest, _ => firstOkAux rest (some (.err e))

/-- `function firstOk<T, E>(results)` of the sync-only module. -/
def firstOk (results : List (Result α ε)) :
    Except (JSError κ) (Result α ε) :=
  firstOkAux results none

end RSync

namespace RMain

variable {α β ε φ κ τ X : Type}

/-! ### Observers used to state the specification claims -/

/-- The first `Err` element of a list of results, if any. -/
def firstErr : List (Result α ε) → Option (Err ε)
  | [] => none
  | .err e :: _ => some e
  | .ok _ :: rest => firstErr rest

/-- The first `Ok` element of a list of results, if any. -/
def firstOkElem : List (Result α ε) → Option (Ok α)
  | [] => none
  | .ok o :: _ => some o
  | .err _ :: rest => firstOkElem rest

/-- The payloads of the `Ok` elements, in input order. -/
def okValues : List (Result α ε) → List α
  | [] => []
  | .ok o :: rest => o.value :: okValues rest
  | .err _ :: rest => okValues rest

/-- The payloads of the `Err` elements, in input order. -/
def errValues : List (Result α ε) → List ε
  | [] => []
  | .ok _ :: rest => errValues rest
  | .err e :: rest => e.error :: errValues rest

/-- The last element of a list, if any. -/
def lastElem : List X → Option X
  | [] => none
  | [x] => some x
  | _ :: y :: rest => lastElem (y :: rest)

/-- Resolve a value-or-promise to the underlying value (awaiting the
promise if there is one). -/
def PVal.resolve : PVal β → β
  | .val b => b
  | .promise b => b

/-- `_instanceof Promise_` on the value returned by an `andThen`
transform (`Promise<Result>` is the only promise case). -/
def AndThenRet.isPromise : AndThenRet β ε → Bool
  | .promiseRes _ => true
  | _ => false

/-! ### Characterisation lemmas for the loops -/

theorem lastElem_cons_isSome (x : X) (l : List X) :
    (lastElem (x :: l)).isSome := by
  induction l generalizing x with
  | nil => rfl
  | cons y t ih => simpa [lastElem] using ih y

theorem allAux_spec (fresh : Nat) (rs : List (Result α ε)) (acc : List α) :
    allAux fresh rs acc =
      match firstErr rs with
      | some e => .err e
      | none => .ok ⟨fresh, acc ++ okValues rs⟩ := by
  induction rs generalizing acc with
  | nil => simp [allAux, firstErr, okValues]
  | cons r rest ih =>
    cases r with
    | ok o =>
      rw [allAux, ih]
      simp only [firstErr, okValues]
      cases firstErr rest <;> simp
    | err e => rfl

theorem partitionAux_spec (fresh : Nat) (rs : List (Result α ε))
    (va : List α) (ea : List ε) :
    partitionAux fresh rs va ea =
      if (ea ++ errValues rs).length > 0
      then .err ⟨fresh, ea ++ errValues rs⟩
      else .ok ⟨fresh, va ++ okValues rs⟩ := by
  induction rs generalizing va ea with
  | nil => simp [partitionAux, errValues, okValues]
  | cons r rest ih =>
    cases r with
    | ok o =>
      rw [partitionAux, ih]
      simp only [errValues, okValues]
      by_cases h : (ea ++ errValues rest).length > 0 <;> simp [h]
    | err e =>
      rw [partitionAux, ih]
      simp only [errValues, okValues]
      simp

theorem firstOkAux_spec (rs : List (Result α ε)) (last : Option (Result α ε)) :
    firstOkAux (κ := κ) rs last =
      match firstOkElem rs with
      | some o => .ok (.ok o)
      | none =>
        match lastElem rs with
        | some r => .ok r
        | none =>
          match last with
          | some l => .ok l
          | none => .error ⟨"firstOk called with empty array", none⟩ := by
  induction rs generalizing last with
  | nil => cases last <;> rfl
  | cons r rest ih =>
    cases r with
    | ok o => rfl
    | err e =>
      rw [firstOkAux, ih]
      simp only [firstOkElem, lastElem]
      cases hfo : firstOkElem rest
      · cases rest with
        | nil => rfl
        | cons y t =>
          have hstep : lastElem (Result.err e :: y :: t) = lastElem (y :: t) :=
            rfl
          rw [hstep]
          cases hl : lastElem (y :: t)
          · exact absurd (hl ▸ lastElem_cons_isSome y t) (by simp)
          · rfl
      · rfl

end RMain

namespace RSync

open RMain (Ok Err Result)

variable {α ε κ : Type}

theorem allAux_eq_main (fresh : Nat) (rs : List (Result α ε)) (acc : List α) :
    RSync.allAux fresh rs acc = RMain.allAux fresh rs acc := by
  induction rs generalizing acc with
  | nil => rfl
  | cons r rest ih =>
    cases r with
    | ok o => exact ih (acc ++ [o.value])
    | err e => rfl

theorem partitionAux_eq_main (fresh : Nat) (rs : List (Result α ε))
    (va : List α) (ea : List ε) :
    RSync.partitionAux fresh rs va ea = RMain.partitionAux fresh rs va ea := by
  induction rs generalizing va ea with
  | nil => rfl
  | cons r rest ih =>
    cases r with
    | ok o => exact ih (va ++ [o.value]) ea
    | err e => exact ih va (ea ++ [e.error])

theorem firstOkAux_eq_main (rs : List (Result α ε))
    (last : Option (Result α ε)) :
    RSync.firstOkAux (κ := κ) rs last = RMain.firstOkAux rs last := by
  induction rs generalizing last with
  | nil => cases last <;> rfl
  | cons r rest ih =>
    cases r with
    | ok o => rfl
    | err e => exact ih (some (.err e))

end RSync

/-! ## Claim theorems -/

/-- C2. `Result.all` of the primary module iterates in input order and, if
any element is an `Err`, returns the first `Err` element unchanged — the
record, including its allocation identifier, is the very same instance,
not a re-wrapped copy; if every element is `Ok`, it returns a freshly
allocated `Ok` holding the values in input order; on the empty list it
returns `Ok` of the empty list. -/
theorem RMain.all_spec {α ε : Type} (rs : List (Result α ε)) (fresh : Nat) :
    (∀ e, firstErr rs = some e → Result.all rs fresh = .err e) ∧
    (firstErr rs = none → Result.all rs fresh = .ok ⟨fresh, okValues rs⟩) ∧
    Result.all ([] : List (Result α ε)) fresh = .ok ⟨fresh, []⟩ := by
  have h := allAux_spec fresh rs []
  refine ⟨fun e he => ?_, fun he => ?_, rfl⟩
  · simp only [Result.all, h, he]
  · simp only [Result.all, h, he, List.nil_append]

theorem RMain.all_spec_witness :
    RMain.Result.all
        [RMain.Result.ok ⟨0, (1 : Nat)⟩, RMain.Result.err ⟨1, "x"⟩,
          RMain.Result.ok ⟨2, 3⟩] 3 =
      RMain.Result.err ⟨1, "x"⟩ ∧
    RMain.Result.all ([] : List (RMain.Result Nat String)) 9 =
      RMain.Result.ok ⟨9, []⟩ :=
  ⟨(RMain.all_spec _ 3).1 ⟨1, "x"⟩ rfl, (RMain.all_spec [] 9).2.2⟩

/-- C6. `Result.partition` of the primary module consumes the entire list:
if at least one element is an `Err` it returns `Err` of all the error
payloads in input order, otherwise `Ok` of all the value payloads in input
order; the empty list yields `Ok` of the empty list. -/
theorem RMain.partition_spec {α ε : Type} (rs : List (Result α ε))
    (fresh : Nat) :
    (errValues rs ≠ [] →
      Result.partition rs fresh = .err ⟨fresh, errValues rs⟩) ∧
    (errValues rs = [] →
      Result.partition rs fresh = .ok ⟨fresh, okValues rs⟩) ∧
    Result.partition ([] : List (Result α ε)) fresh = .ok ⟨fresh, []⟩ := by
  have h := partitionAux_spec fresh rs [] []
  simp only [List.nil_append] at h
  refine ⟨fun hne => ?_, fun heq => ?_, rfl⟩
  · have : (errValues rs).length > 0 := List.length_pos.mpr hne
    simp only [Result.partition, h, if_pos this]
  · simp [Result.partition, h, heq]

theorem RMain.partition_spec_witness :
    RMain.Result.partition
        [RMain.Result.ok ⟨0, (1 : Nat)⟩, RMain.Result.err ⟨1, "a"⟩,
          RMain.Result.ok ⟨2, 2⟩, RMain.Result.err ⟨3, "b"⟩] 4 =
      RMain.Result.err ⟨4, ["a", "b"]⟩ :=
  (RMain.partition_spec _ 4).1 (by simp [RMain.errValues])

/-- C3. `Result.firstOk` of the primary module returns the first `Ok`
element when one exists; when every element is an `Err` it returns the
last `Err` encountered (the list's last element), not the first; and it
raises the contract-violation fault `"firstOk called with empty array"`
exactly when the input list is empty. -/
theorem RMain.firstOk_spec {α ε κ : Type} (rs : List (Result α ε)) :
    (∀ o, firstOkElem rs = some o →
      Result.firstOk (κ := κ) rs = .ok (.ok o)) ∧
    (firstOkElem rs = none → ∀ r, lastElem rs = some r →
      Result.firstOk (κ := κ) rs = .ok r) ∧
    (Result.firstOk (κ := κ) rs =
        .error ⟨"firstOk called with empty array", none⟩ ↔ rs = []) := by
  have h := firstOkAux_spec (κ := κ) rs none
  refine ⟨fun o ho => ?_, fun hn r hr => ?_, ?_, fun he => ?_⟩
  · simp only [Result.firstOk, h, ho]
  · simp only [Result.firstOk, h, hn, hr]
  · intro hcontra
    rw [Result.firstOk, h] at hcontra
    cases hfo : firstOkElem rs with
    | some o => rw [hfo] at hcontra; exact absurd hcontra (by simp)
    | none =>
      rw [hfo] at hcontra
      cases rs with
      | nil => rfl
      | cons y t =>
        cases hl : lastElem (y :: t) with
        | none => exact absurd (hl ▸ lastElem_cons_isSome y t) (by simp)
        | some r => rw [hl] at hcontra; exact absurd hcontra (by simp)
  · subst he; rfl

theorem RMain.firstOk_spec_witness :
    RMain.Result.firstOk (κ := Unit)
        [RMain.Result.err (α := Nat) ⟨0, "a"⟩, RMain.Result.err ⟨1, "b"⟩,
          RMain.Result.err ⟨2, "c"⟩] =
      Except.ok (RMain.Result.err ⟨2, "c"⟩) ∧
    RMain.Result.firstOk (κ := Unit) ([] : List (RMain.Result Nat String)) =
      Except.error ⟨"firstOk called with empty array", none⟩ :=
  ⟨(RMain.firstOk_spec (κ := Unit)
        [RMain.Result.err (α := Nat) ⟨0, "a"⟩, RMain.Result.err ⟨1, "b"⟩,
          RMain.Result.err ⟨2, "c"⟩]).2.1
      rfl (RMain.Result.err ⟨2, "c"⟩) rfl,
   (RMain.firstOk_spec ([] : List (RMain.Result Nat String))).2.2.mpr rfl⟩

/-- C4. The capturing boundary never lets a fault escape: for every
computation (`Comp κ τ`, an outcome that is either a returned value or a
thrown/rejected fault), both overload branches of `Result.try` and of
`AsyncResult.tryPromise` return (never raise): a normal return is wrapped
in `Ok`, and a raised fault is converted to an `Err` carrying the
catch-transformed error when a `catch` is supplied, else the generic
`"Unexpected exception"` failure whose `cause` is the original fault.
(The Lean return types are `Result` / `AsyncResult`, not `Except`: the
translation of the source's `try`/`catch` blocks is total, which is the
no-escape guarantee.) -/
theorem RMain.capture_spec {κ τ ε : Type} (comp : Comp κ τ)
    (catchFn : κ → ε) (fresh : Nat) :
    (∀ v, comp = .ok v →
      tryCatchWith comp catchFn fresh = .ok ⟨fresh, v⟩ ∧
      tryCatchThunk comp fresh = .ok ⟨fresh, v⟩ ∧
      tryPromiseWith comp catchFn fresh = ⟨.ok ⟨fresh, v⟩⟩ ∧
      tryPromiseThunk comp fresh = ⟨.ok ⟨fresh, v⟩⟩) ∧
    (∀ c, comp = .error c →
      tryCatchWith comp catchFn fresh = .err ⟨fresh, catchFn c⟩ ∧
      tryCatchThunk comp fresh =
        .err ⟨fresh, ⟨"Unexpected exception", some c⟩⟩ ∧
      tryPromiseWith comp catchFn fresh = ⟨.err ⟨fresh, catchFn c⟩⟩ ∧
      tryPromiseThunk comp fresh =
        ⟨.err ⟨fresh, ⟨"Unexpected exception", some c⟩⟩⟩) := by
  constructor <;> rintro x rfl <;> exact ⟨rfl, rfl, rfl, rfl⟩

theorem RMain.capture_spec_witness :
    RMain.tryCatchWith (Except.error "boom" : RMain.Comp String Nat)
        String.length 0 =
      RMain.Result.err ⟨0, 4⟩ ∧
    RMain.tryCatchThunk (Except.error "boom" : RMain.Comp String Nat) 0 =
      RMain.Result.err ⟨0, ⟨"Unexpected exception", some "boom"⟩⟩ ∧
    RMain.tryPromiseThunk (Except.error "boom" : RMain.Comp String Nat) 0 =
      ⟨RMain.Result.err ⟨0, ⟨"Unexpected exception", some "boom"⟩⟩⟩ := by
  have h :=
    (RMain.capture_spec (Except.error "boom" : RMain.Comp String Nat)
      String.length 0).2 "boom" rfl
  exact ⟨h.1, h.2.1, h.2.2.2⟩

/-- C8 counterexample. The claim fixes the `unwrap`-on-`Err` message as
`"called unwrap on Err"`, but the source throws
`new Error("Called unwrap on Err")` (capital `C`): at the concrete input
`err(7)` the raised fault carries the capitalised message and not the
claimed one. -/
theorem RMain.unwrap_message_counterexample :
    RMain.Result.unwrap (κ := Unit)
        (RMain.Result.err ⟨0, (7 : Nat)⟩ : RMain.Result Nat Nat) =
      Except.error ⟨"Called unwrap on Err", none⟩ ∧
    ¬ (RMain.Result.unwrap (κ := Unit)
        (RMain.Result.err ⟨0, (7 : Nat)⟩ : RMain.Result Nat Nat) =
      Except.error ⟨"called unwrap on Err", none⟩) :=
  ⟨rfl, fun h => by
    have h' : (⟨"Called unwrap on Err", none⟩ : JSError Unit) =
        ⟨"called unwrap on Err", none⟩ := by injection h
    have hmsg : "Called unwrap on Err" = "called unwrap on Err" :=
      congrArg JSError.message h'
    exact absurd hmsg (by decide)⟩

/-- C8 (amended). `unwrap` returns the held value on every `Ok` and raises
the contract-violation fault with the fixed message
`"Called unwrap on Err"` on every `Err`; dually, `unwrapErr` returns the
held error on every `Err` and raises the contract-violation fault
(`"Called unwrapErr on Ok"`) on every `Ok`. -/
theorem RMain.unwrap_unwrapErr_spec {α ε κ : Type} (o : Ok α) (e : Err ε) :
    Result.unwrap (κ := κ) (.ok o : Result α ε) = .ok o.value ∧
    Result.unwrap (κ := κ) (.err e : Result α ε) =
      .error ⟨"Called unwrap on Err", none⟩ ∧
    Result.unwrapErr (κ := κ) (.err e : Result α ε) = .ok e.error ∧
    Result.unwrapErr (κ := κ) (.ok o : Result α ε) =
      .error ⟨"Called unwrapErr on Ok", none⟩ :=
  ⟨rfl, rfl, rfl, rfl⟩

/-- C1. For every transform recognised as producing a deferred value — a
declared `async function` (`constructor.name === "AsyncFunction"`), which
by JavaScript semantics always returns a `Promise` — `map` returns a
deferred outcome on both variants: on `Ok` it awaits the transform's
promise and wraps the resolved value in a fresh `Ok` inside the deferred
outcome, and on `Err` it returns a deferred outcome that immediately
resolves to the same `Err` instance (hence the same `Err` payload); so for
such a transform whether the result is deferred does not depend on the
variant. -/
theorem RMain.map_async_bridging {α β ε : Type} (o : Ok α) (e : Err ε)
    (fn : JSFun α β) (fresh : Nat)
    (hdecl : fn.isAsyncDecl = true)
    (hprom : ∀ a, (fn.run a).isPromise = true) :
    Ok.map (ε := ε) o fn fresh =
      SyncOrAsync.async ⟨.ok ⟨fresh, (fn.run o.value).resolve⟩⟩ ∧
    Err.map (α := α) (β := β) e fn = SyncOrAsync.async ⟨.err e⟩ ∧
    (Ok.map (ε := ε) o fn fresh).isAsync =
      (Err.map (α := α) (β := β) e fn).isAsync := by
  have h := hprom o.value
  have hok : Ok.map (ε := ε) o fn fresh =
      SyncOrAsync.async ⟨.ok ⟨fresh, (fn.run o.value).resolve⟩⟩ := by
    cases hr : fn.run o.value with
    | val b => rw [hr] at h; exact absurd h (by simp [PVal.isPromise])
    | promise b => simp [Ok.map, hr, PVal.resolve]
  have herr : Err.map (α := α) (β := β) e fn =
      SyncOrAsync.async ⟨.err e⟩ := by
    simp [Err.map, hdecl]
  exact ⟨hok, herr, by rw [hok, herr]; rfl⟩

theorem RMain.map_async_bridging_witness :
    RMain.Ok.map (ε := String) (⟨0, (2 : Nat)⟩ : RMain.Ok Nat)
        ⟨true, fun x => RMain.PVal.promise (x * 3)⟩ 1 =
      RMain.SyncOrAsync.async ⟨RMain.Result.ok ⟨1, 6⟩⟩ ∧
    RMain.Err.map (α := Nat) (β := Nat)
        (⟨5, "boom"⟩ : RMain.Err String)
        ⟨true, fun x => RMain.PVal.promise (x * 3)⟩ =
      RMain.SyncOrAsync.async ⟨RMain.Result.err ⟨5, "boom"⟩⟩ := by
  have h := RMain.map_async_bridging (⟨0, 2⟩ : RMain.Ok Nat)
    (⟨5, "boom"⟩ : RMain.Err String)
    ⟨true, fun x => RMain.PVal.promise (x * 3)⟩ 1 rfl (fun _ => rfl)
  exact ⟨h.1, h.2.1⟩

/-- C5 counterexample. The claim quantifies over every transform `f`, but
for an `async`-declared transform `Err.map` does not return the identical
`Err` instance: at the concrete input `err(7)` with an async transform it
returns a deferred outcome (an `AsyncResult` wrapper), not the plain
`Err`. -/
theorem RMain.err_map_async_counterexample :
    RMain.Err.map (α := Nat) (β := Nat) (⟨0, (7 : Nat)⟩ : RMain.Err Nat)
        ⟨true, fun _ => RMain.PVal.promise (0 : Nat)⟩ =
      RMain.SyncOrAsync.async ⟨RMain.Result.err ⟨0, 7⟩⟩ ∧
    ¬ (RMain.Err.map (α := Nat) (β := Nat) (⟨0, (7 : Nat)⟩ : RMain.Err Nat)
        ⟨true, fun _ => RMain.PVal.promise (0 : Nat)⟩ =
      RMain.SyncOrAsync.sync (RMain.Result.err ⟨0, 7⟩)) :=
  ⟨rfl, by decide⟩

/-- C5 (amended). `err(e).map(f)` returns the identical `Err` instance for
every `f` that is not a declared `async function`; for an async-declared
`f` it returns a deferred outcome resolving to that same instance.
Dually, `ok(v).mapErr(f)` returns the identical `Ok` instance for every
`f` (no async detection at all on that path). -/
theorem RMain.same_instance_noop_spec {α β ε φ : Type} (e : Err ε)
    (f : JSFun α β) (o : Ok α) (g : ε → φ) :
    (f.isAsyncDecl = false →
      Err.map e f = SyncOrAsync.sync (.err e)) ∧
    (f.isAsyncDecl = true →
      Err.map (α := α) (β := β) e f = SyncOrAsync.async ⟨.err e⟩) ∧
    Ok.mapErr o g = Result.ok o := by
  refine ⟨fun h => ?_, fun h => ?_, rfl⟩ <;> simp [Err.map, h]

theorem RMain.same_instance_noop_spec_witness :
    RMain.Err.map (α := Nat) (β := Nat) (⟨3, (9 : Nat)⟩ : RMain.Err Nat)
        ⟨false, fun x => RMain.PVal.val x⟩ =
      RMain.SyncOrAsync.sync (RMain.Result.err ⟨3, 9⟩) ∧
    RMain.Ok.mapErr (⟨1, (5 : Nat)⟩ : RMain.Ok Nat)
        (fun (n : Nat) => toString n) =
      RMain.Result.ok ⟨1, 5⟩ := by
  have h := RMain.same_instance_noop_spec (⟨3, 9⟩ : RMain.Err Nat)
    (⟨false, fun x => RMain.PVal.val x⟩ : RMain.JSFun Nat Nat)
    (⟨1, 5⟩ : RMain.Ok Nat) (fun (n : Nat) => toString n)
  exact ⟨h.1 rfl, h.2.2⟩

/-- C9. On the `Err` branch, `map` and `andThen` decide whether to lift
into a deferred outcome solely by the declared-async flag
(`constructor.name === "AsyncFunction"`), never by inspecting the
returned value: for every `Err` instance and every non-async-declared
transform — even one that returns a `Promise` on every input — both
return the plain synchronous `Err` instance; whereas the `Ok` branch of
`map` decides by whether the value actually returned is a `Promise`. -/
theorem RMain.err_async_detection_spec {α β ε : Type} (e : Err ε)
    (fn : JSFun α β) (fn2 : AndThenFn α β ε) (o : Ok α) (g : JSFun α β)
    (fresh : Nat)
    (h1 : fn.isAsyncDecl = false)
    (_hp1 : ∀ a, (fn.run a).isPromise = true)
    (h2 : fn2.isAsyncDecl = false)
    (_hp2 : ∀ a, (fn2.run a).isPromise = true) :
    Err.map e fn = SyncOrAsync.sync (.err e) ∧
    Err.andThen e fn2 = SyncOrAsync.sync (.err e) ∧
    (Ok.map (ε := ε) o g fresh).isAsync = (g.run o.value).isPromise := by
  refine ⟨by simp [Err.map, h1], by simp [Err.andThen, h2], ?_⟩
  cases hr : g.run o.value <;>
    simp [Ok.map, hr, SyncOrAsync.isAsync, PVal.isPromise]

theorem RMain.err_async_detection_spec_witness :
    RMain.Err.map (α := Nat) (β := Nat) (⟨0, (7 : Nat)⟩ : RMain.Err Nat)
        ⟨false, fun _ => RMain.PVal.promise (0 : Nat)⟩ =
      RMain.SyncOrAsync.sync (RMain.Result.err ⟨0, 7⟩) ∧
    RMain.Err.andThen (⟨0, (7 : Nat)⟩ : RMain.Err Nat)
        (⟨false, fun _ => RMain.AndThenRet.promiseRes
            (RMain.Result.ok ⟨9, (0 : Nat)⟩)⟩ :
          RMain.AndThenFn Nat Nat Nat) =
      RMain.SyncOrAsync.sync (RMain.Result.err ⟨0, 7⟩) := by
  have h := RMain.err_async_detection_spec (α := Nat) (β := Nat)
    (⟨0, 7⟩ : RMain.Err Nat)
    ⟨false, fun _ => RMain.PVal.promise 0⟩
    ⟨false, fun _ => RMain.AndThenRet.promiseRes (RMain.Result.ok ⟨9, 0⟩)⟩
    (⟨1, 1⟩ : RMain.Ok Nat) ⟨false, fun x => RMain.PVal.val x⟩ 2
    rfl (fun _ => rfl) rfl (fun _ => rfl)
  exact ⟨h.1, h.2.1⟩

/-- C7. `AsyncResult.all` resolves to exactly the value of the synchronous
`Result.all` applied to the list of the elements' resolutions (in input
order — `Promise.all` keeps its output array in input order regardless of
completion order, which the model reflects by mapping over the input
list); in particular when every element resolves to an `Ok`, it resolves
to `Ok` of the resolved values in input order. -/
theorem RMain.asyncResult_all_spec {α ε : Type}
    (rs : List (AsyncResult α ε)) (fresh : Nat) :
    (AsyncResult.all rs fresh).promise =
      Result.all (rs.map AsyncResult.promise) fresh ∧
    (firstErr (rs.map AsyncResult.promise) = none →
      (AsyncResult.all rs fresh).promise =
        .ok ⟨fresh, okValues (rs.map AsyncResult.promise)⟩) := by
  refine ⟨rfl, fun h => ?_⟩
  have hs := allAux_spec fresh (rs.map AsyncResult.promise) []
  simp only [AsyncResult.all, Result.all, hs, h, List.nil_append]

theorem RMain.asyncResult_all_spec_witness :
    (RMain.AsyncResult.all
        [(⟨RMain.Result.ok ⟨0, (1 : Nat)⟩⟩ : RMain.AsyncResult Nat String),
          ⟨RMain.Result.ok ⟨1, 2⟩⟩] 5).promise =
      RMain.Result.ok ⟨5, [1, 2]⟩ :=
  (RMain.asyncResult_all_spec _ 5).2 rfl

/-- C10. The repository's two `Result` modules have extensionally equal
collection functions: over the shared runtime representation (the two
modules' `Ok` / `Err` classes store the same tag and payload), `all`,
`partition` and `firstOk` of the sync-only module return the same result
as the primary module's on every input list — equal tag and equal
payload (indeed equal records), and `firstOk` raises the same
contract-violation fault on exactly the same inputs (the empty list). -/
theorem RSync.modules_extensionally_equal {α ε κ : Type}
    (rs : List (RMain.Result α ε)) (fresh : Nat) :
    RSync.all rs fresh = RMain.Result.all rs fresh ∧
    RSync.partition rs fresh = RMain.Result.partition rs fresh ∧
    RSync.firstOk (κ := κ) rs = RMain.Result.firstOk rs :=
  ⟨RSync.allAux_eq_main fresh rs [],
   RSync.partitionAux_eq_main fresh rs [] [],
   RSync.firstOkAux_eq_main rs none⟩
